import Mathlib

/-!
Verification of the image-render command-line tool (src/main.rs) against its
specification.

The development shallowly embeds the program: pure helpers of main.rs
(FILTERS, get_filter, validate_size, get_size, write_image, the two resize
stages of main) become Lean functions, and the external collaborators the
specification names as black boxes (the image decoder and resampler of the
image crate, the terminal-size query, the command-line parser, the output
file) are passed in as an explicit environment.  Machine integers are
modelled as Nat with explicit reduction mod 2 ^ 32 where u32 arithmetic can
overflow; fallible operations return Except or Option; the unwrap calls of
the source are modelled as explicit panic outcomes.

Regex note: validate_size uses the unanchored pattern d+[Xx]d+|term|original
and get_size uses (d+)[Xx](d+) (with d standing for the digit class).  For a
pattern of this shape, a match exists at a position exactly when the maximal
leading digit run there is nonempty and is followed by x or X and a further
digit: a shorter digit run would have to be followed by x or X, but the next
character after a non-maximal run is a digit.  The regex engine reports the
match starting at the least such position, and both capture groups are the
maximal digit runs (greedy repetition).  The digit class of the regex crate
is Unicode-aware; the model uses ASCII digits, so theorems quantifying over
arbitrary strings carry an ASCII-only hypothesis under which the two agree.
-/

namespace ImageRender

/-- RGB pixel, one value per channel.  The source reads u8 channels, so the
values produced by the decoder are below 256; the encoder model is faithful
for those values (decimal printing with no leading zeros). -/
abbrev Pixel := Nat × Nat × Nat

/-- A decoded image as the image library exposes it to main.rs: a pixel grid
with explicit dimensions, addressed by x (column) and y (row). -/
structure PixelGrid where
  width : Nat
  height : Nat
  pix : Nat → Nat → Pixel

/-- The five resampling filters of image::imageops that get_filter can
return (main.rs lines 24-30). -/
inductive FilterType where
  | Nearest
  | Triangle
  | CatmullRom
  | Gaussian
  | Lanczos3
deriving DecidableEq

/-- The static FILTERS table (main.rs lines 15-21). -/
def FILTERS : List String :=
  ["nearest", "triangle", "catmullrom", "gaussian", "lanczos3"]

/-- get_filter (main.rs lines 23-32): a Rust match on the string, i.e. a
chain of equality tests, yielding the filter or None. -/
def get_filter (filter : String) : Option FilterType :=
  if filter = "nearest" then some FilterType.Nearest
  else if filter = "triangle" then some FilterType.Triangle
  else if filter = "catmullrom" then some FilterType.CatmullRom
  else if filter = "gaussian" then some FilterType.Gaussian
  else if filter = "lanczos3" then some FilterType.Lanczos3
  else none

/-- Whether the regex fragment digits-then-[Xx]-then-digits matches starting
at the head of s (see the regex note in the file header: maximal munch on
the leading digit run is equivalent to existence of a match here). -/
def wxhHere (s : List Char) : Bool :=
  match s.takeWhile Char.isDigit, s.dropWhile Char.isDigit with
  | [], _ => false
  | _ :: _, x :: d :: _ => (x = 'x' || x = 'X') && d.isDigit
  | _, _ => false

/-- Whether the fragment digits-[Xx]-digits matches somewhere in s, i.e. the
unanchored Regex::is_match of that fragment. -/
def hasWxH : List Char → Bool
  | [] => false
  | c :: rest => wxhHere (c :: rest) || hasWxH rest

/-- Whether pat occurs at the head of s. -/
def startsWithChars : List Char → List Char → Bool
  | [], _ => true
  | _ :: _, [] => false
  | a :: pat, b :: s => a = b && startsWithChars pat s

/-- Whether pat occurs somewhere in s, i.e. an unanchored literal
alternative of the regex. -/
def containsChars (pat : List Char) : List Char → Bool
  | [] => startsWithChars pat []
  | c :: rest => startsWithChars pat (c :: rest) || containsChars pat rest

/-- The unanchored test performed by the regex of validate_size (main.rs
line 35), an alternation of the digits-[Xx]-digits fragment and the two
literals term and original: true iff some substring matches one of the
three alternatives. -/
def sizeRegexHit (s : String) : Bool :=
  hasWxH s.data || containsChars "term".data s.data ||
    containsChars "original".data s.data

/-- validate_size (main.rs lines 34-39): Ok when the unanchored regex
matches, otherwise the fixed error string. -/
def validate_size (size : String) : Except String Unit :=
  if sizeRegexHit size then Except.ok ()
  else Except.error "Size is not in a valid format"

/-- The leftmost match of the captured pattern of get_size (main.rs line
49), returning the two capture groups as digit runs; none when the pattern
does not match (see the regex note in the file header). -/
def firstWxH : List Char → Option (List Char × List Char)
  | [] => none
  | c :: rest =>
    if wxhHere (c :: rest) then
      some ((c :: rest).takeWhile Char.isDigit,
        (((c :: rest).dropWhile Char.isDigit).drop 1).takeWhile Char.isDigit)
    else firstWxH rest

/-- Numeric value of a run of ASCII digits. -/
def digitsToNat (s : List Char) : Nat :=
  s.foldl (fun n c => n * 10 + (c.toNat - 48)) 0

/-- Rust str::parse::<u32> applied to a digit run: the value, or none when
the value does not fit in 32 bits (the source unwraps this result). -/
def parseU32 (s : List Char) : Option Nat :=
  if digitsToNat s < 2 ^ 32 then some (digitsToNat s) else none

/-- Result of get_size: either the Option<(u32, u32)> the function returns
(none meaning no resize), or the panic raised by the unwrap on a failed u32
parse (main.rs lines 52-53). -/
inductive SizeResult where
  | panicked
  | ok (sz : Option (Nat × Nat))
deriving DecidableEq

/-- get_size (main.rs lines 41-60).  The argument term is the result of the
terminal-size query, an external black box returning (columns, rows) as u16
values (widened losslessly to u32 by the source) or nothing; the branch for
term and the fallback branch for a non-matching string both return exactly
that query result, and the question-mark operator turns an unavailable
terminal into the None result.  The map_or defaults of the source are dead:
both capture groups exist whenever the regex matches. -/
def get_size (term : Option (Nat × Nat)) (size : String) : SizeResult :=
  if size = "term" then SizeResult.ok term
  else if size = "original" then SizeResult.ok none
  else
    match firstWxH size.data with
    | some (d1, d2) =>
      match parseU32 d1, parseU32 d2 with
      | some w, some h => SizeResult.ok (some (w, h))
      | _, _ => SizeResult.panicked
    | none => SizeResult.ok term

/-- Concatenation of a list of lists. -/
def catLists {α : Type} : List (List α) → List α
  | [] => []
  | l :: ls => l ++ catLists ls

/-- The exact bytes the format macro of write_image produces for one pixel
(main.rs line 144): ESC [48;2; then the three channels in decimal separated
by semicolons, then m, one space, and ESC [0m. -/
def encodePixel (p : Pixel) : List Char :=
  "\x1b[48;2;".data ++ (Nat.repr p.1).data ++ ";".data ++
    (Nat.repr p.2.1).data ++ ";".data ++ (Nat.repr p.2.2).data ++
    "m \x1b[0m".data

/-- The (x, y, color) triples of row y in increasing x order, as the pixel
iterator of the image library yields them. -/
def rowPixels (g : PixelGrid) (y : Nat) : List (Nat × Nat × Pixel) :=
  (List.range g.width).map (fun x => (x, y, g.pix x y))

/-- All pixels of the image in the iterator's order: row 0 left to right,
then row 1, and so on (row-major). -/
def pixelsOf (g : PixelGrid) : List (Nat × Nat × Pixel) :=
  catLists ((List.range g.height).map (fun y => rowPixels g y))

/-- The byte output of the loop of write_image (main.rs lines 134-145)
followed by the final newline write (line 146): a newline is emitted before
a pixel whose row index differs from last_y, and last_y starts at 0.
Recursing with last_y replaced by y is the source's conditional update,
which only assigns when the two values differ. -/
def writeImageAux : Nat → List (Nat × Nat × Pixel) → List Char
  | _, [] => ['\n']
  | lastY, (_, y, c) :: rest =>
    (if y ≠ lastY then ['\n'] else []) ++ encodePixel c ++ writeImageAux y rest

/-- write_image (main.rs lines 130-147) run against an output sink that
already holds the bytes out: every write_all call appends to the sink. -/
def write_image : List Char → Nat → List (Nat × Nat × Pixel) → List Char
  | out, _, [] => out ++ ['\n']
  | out, lastY, (_, y, c) :: rest =>
    write_image ((out ++ (if y ≠ lastY then ['\n'] else [])) ++ encodePixel c)
      y rest

/-- The bytes write_image emits for a grid (its output on an empty sink). -/
def ansiEncode (g : PixelGrid) : List Char :=
  writeImageAux 0 (pixelsOf g)

/-- write_image for a grid against a sink already holding out. -/
def writeImageTo (out : List Char) (g : PixelGrid) : List Char :=
  write_image out 0 (pixelsOf g)

/-- Row y of the grid encoded with no separator between the pixel escape
sequences, following the specification's description of the format. -/
def encodeRow (g : PixelGrid) (y : Nat) : List Char :=
  catLists ((List.range g.width).map (fun x => encodePixel (g.pix x y)))

/-- Encoded rows joined with a single newline between consecutive rows. -/
def joinRowsNL : List (List Char) → List Char
  | [] => []
  | [r] => r
  | r :: rs => r ++ '\n' :: joinRowsNL rs

/-- The output format as the specification states it: the encoded rows in
order, a single newline between consecutive rows, and one trailing newline
after the final row. -/
def specAnsiFormat (g : PixelGrid) : List Char :=
  joinRowsNL ((List.range g.height).map (fun y => encodeRow g y)) ++ ['\n']

/-- Modelled from the spec: the dimension law of the fit-resize of the
external image library (DynamicImage::resize, an external collaborator, is
not part of this repository) - an aspect-ratio-preserving fit into the box
(bw, bh): the side that binds is fit to the box and the other side is
scaled proportionally, with integer division. -/
def fitDims (w h bw bh : Nat) : Nat × Nat :=
  if bw * h ≤ w * bh then (bw, h * bw / w) else (w * bh / h, bh)

/-- One resize request issued to the external image library. -/
structure ResizeCall where
  targetW : Nat
  targetH : Nat
  filter : FilterType
  exact : Bool
deriving DecidableEq

/-- The resize stages of main (main.rs lines 110-114) recorded as the list
of issued calls together with the resulting dimensions: resize_exact to
(width * 3, height) unconditionally, the width multiplication performed on
u32 and hence reduced mod 2 ^ 32, and then, when get_size produced a size,
a fit resize to it; both calls pass the same filter value.  A none target
plays the NoResize policy of the specification and some (w, h) plays
Explicit (w, h). -/
def transformTrace (w0 h0 : Nat) (f : FilterType) (sz : Option (Nat × Nat)) :
    List ResizeCall × (Nat × Nat) :=
  let w1 := (w0 * 3) % 2 ^ 32
  match sz with
  | none => ([⟨w1, h0, f, true⟩], (w1, h0))
  | some (bw, bh) =>
    ([⟨w1, h0, f, true⟩, ⟨bw, bh, f, false⟩], fitDims w1 h0 bw bh)

/-- Modelled from the spec: resize_exact returns a grid of exactly the
requested dimensions; the pixel content comes from the environment's
resampler oracle, since the resampling algorithm itself is external. -/
def resizeExact (res : Nat → Nat → FilterType → Bool → PixelGrid → Nat → Nat → Pixel)
    (w h : Nat) (f : FilterType) (g : PixelGrid) : PixelGrid :=
  ⟨w, h, res w h f true g⟩

/-- Modelled from the spec: resize fits the grid inside the box preserving
aspect ratio (the fitDims law); the pixel content comes from the oracle. -/
def resizeFit (res : Nat → Nat → FilterType → Bool → PixelGrid → Nat → Nat → Pixel)
    (bw bh : Nat) (f : FilterType) (g : PixelGrid) : PixelGrid :=
  ⟨(fitDims g.width g.height bw bh).1, (fitDims g.width g.height bw bh).2,
    res bw bh f false g⟩

/-- The external collaborators of one run: the result of image::open, the
terminal-size query, the result of opening the output file for writing, and
the resampler's pixel-content oracle. -/
structure Env where
  decode : Except String PixelGrid
  term : Option (Nat × Nat)
  openOut : Except String Unit
  resample : Nat → Nat → FilterType → Bool → PixelGrid → Nat → Nat → Pixel

/-- The parsed command-line matches as the argument parser (an external
collaborator) hands them to the body of main: the filters flag, the size
value (default term), the filter value (default nearest), the optional
input path, and the output value (default -). -/
structure Config where
  filters : Bool
  size : String
  filter : String
  input : Option String
  output : String

/-- The observable result of a run that returns from main: the bytes
printed to standard output, the lines printed to the error stream, and the
bytes written into the output file (none when no file was ever opened, so a
file destination is absent or untouched). -/
structure RunResult where
  stdout : List Char
  stderr : List String
  file : Option (List Char)
deriving DecidableEq

/-- Outcome of a run: a panic from one of the unwrap calls, or a normal
return from main carrying the process exit status.  A Rust main returning
unit exits with status 0 on every normal return, including the
err_and_return paths (main.rs lines 8-13), which print to the error stream
and then return. -/
inductive Outcome where
  | panicked
  | finished (exitCode : Nat) (r : RunResult)
deriving DecidableEq

/-- The bytes the filters listing prints: each FILTERS entry on its own
line (main.rs lines 94-99). -/
def filtersOutput : List Char :=
  catLists (FILTERS.map (fun s => (s ++ "\n").data))

/-- main (main.rs lines 62-128) after argument parsing.  The parser is an
external collaborator; it guarantees that input is present unless the
filters flag is given, that the filter value is one of FILTERS and that the
size value passed validate_size, but the model leaves the configuration
unconstrained and models the unwrap calls that those guarantees protect as
panics.  The order of effects follows the source: filters listing,
image::open, get_filter unwrap, resize_exact to (width * 3, height) with
the u32 multiplication reduced mod 2 ^ 32, get_size, the optional fit
resize, output selection, write_image.  Mid-stream write errors are not
modelled: the sinks accept all writes. -/
def main (cfg : Config) (env : Env) : Outcome :=
  if cfg.filters then Outcome.finished 0 ⟨filtersOutput, [], none⟩
  else
    match cfg.input with
    | none => Outcome.panicked
    | some _ =>
      match env.decode with
      | Except.error e => Outcome.finished 0 ⟨[], [e], none⟩
      | Except.ok img =>
        match get_filter cfg.filter with
        | none => Outcome.panicked
        | some f =>
          let img1 := resizeExact env.resample ((img.width * 3) % 2 ^ 32)
            img.height f img
          match get_size env.term cfg.size with
          | SizeResult.panicked => Outcome.panicked
          | SizeResult.ok sz =>
            let img2 := match sz with
              | none => img1
              | some (w, h) => resizeFit env.resample w h f img1
            if cfg.output = "-" then
              Outcome.finished 0 ⟨ansiEncode img2, [], none⟩
            else
              match env.openOut with
              | Except.error e => Outcome.finished 0 ⟨[], [e], none⟩
              | Except.ok _ =>
                Outcome.finished 0 ⟨[], [], some (ansiEncode img2)⟩

/-- Whether every character of s is ASCII.  The digit class of the regex
crate is Unicode-aware; on ASCII strings it coincides with Char.isDigit,
which the model uses. -/
def asciiOnly (s : String) : Bool :=
  s.data.all (fun c => c.toNat < 128)

/-- Whether the whole string is of the exact WIDTHxHEIGHT shape described
by the specification: one or more digits, a single x or X, one or more
digits, and nothing else. -/
def isExactWxH (s : List Char) : Bool :=
  match s.takeWhile Char.isDigit, s.dropWhile Char.isDigit with
  | [], _ => false
  | _ :: _, x :: rest => (x = 'x' || x = 'X') && !rest.isEmpty && rest.all Char.isDigit
  | _, _ => false

/-- A resampler oracle returning a constant pixel, used for the concrete
runs of the witnesses and counterexamples. -/
def constResample : Nat → Nat → FilterType → Bool → PixelGrid → Nat → Nat → Pixel :=
  fun _ _ _ _ _ _ _ => (0, 0, 0)

/-- A concrete environment whose decode step fails. -/
def envDecodeFail : Env :=
  ⟨Except.error "decode failure", none, Except.ok (), constResample⟩

/-- A concrete environment where decoding succeeds with a 1 by 1 image and
opening the output file fails. -/
def envOpenFail : Env :=
  ⟨Except.ok ⟨1, 1, fun _ _ => (9, 9, 9)⟩, none,
    Except.error "Permission denied (os error 13)", constResample⟩

/-! ## Theorems -/

/-- write_image appends to the sink exactly the bytes of the pure loop
model: the sink contents never influence what is emitted. -/
theorem write_image_eq (ps : List (Nat × Nat × Pixel)) :
    ∀ (out : List Char) (lastY : Nat),
      write_image out lastY ps = out ++ writeImageAux lastY ps := by
  induction ps with
  | nil => intro out lastY; simp [write_image, writeImageAux]
  | cons p rest ih =>
    intro out lastY
    obtain ⟨x, y, c⟩ := p
    simp [write_image, writeImageAux, ih, List.append_assoc]

/-- Processing a run of pixels that all lie on the current row emits their
encodings back to back, with no newline. -/
theorem writeAux_row (pix : Nat → Nat → Pixel) (y : Nat) :
    ∀ (xs : List Nat) (ps : List (Nat × Nat × Pixel)),
      writeImageAux y ((xs.map (fun x => (x, y, pix x y))) ++ ps) =
        catLists (xs.map (fun x => encodePixel (pix x y))) ++ writeImageAux y ps := by
  intro xs
  induction xs with
  | nil => intro ps; simp [catLists]
  | cons x xs ih =>
    intro ps
    simp [writeImageAux, catLists, ih, List.append_assoc]

/-- A pixel on a row other than last_y is preceded by exactly one newline,
after which processing continues with last_y equal to that row. -/
theorem writeAux_ne (lastY x y : Nat) (c : Pixel) (ps : List (Nat × Nat × Pixel))
    (h : y ≠ lastY) :
    writeImageAux lastY ((x, y, c) :: ps) = '\n' :: writeImageAux y ((x, y, c) :: ps) := by
  simp [writeImageAux, h]

/-- A row of a grid of positive width starts with its x = 0 pixel. -/
theorem rowPixels_cons (g : PixelGrid) (hw : 0 < g.width) (y : Nat) :
    ∃ tail, rowPixels g y = (0, y, g.pix 0 y) :: tail := by
  obtain ⟨w, hw'⟩ : ∃ w, g.width = w + 1 := ⟨g.width - 1, by omega⟩
  refine ⟨((List.range w).map Nat.succ).map (fun x => (x, y, g.pix x y)), ?_⟩
  rw [rowPixels, hw', List.range_succ_eq_map]
  simp

/-- Unfolding equation of catLists on a cons cell. -/
theorem catLists_cons {α : Type} (a : List α) (l : List (List α)) :
    catLists (a :: l) = a ++ catLists l := rfl

/-- Unfolding equation of joinRowsNL on two or more rows. -/
theorem joinRowsNL_cons2 (a b : List Char) (l : List (List Char)) :
    joinRowsNL (a :: b :: l) = a ++ '\n' :: joinRowsNL (b :: l) := rfl

/-- The write_image loop over the rows k, k + 1, ..., k + m - 1, entered
with last_y = k, produces the rows joined by single newlines plus the
trailing newline, provided rows are nonempty. -/
theorem writeAux_rows (g : PixelGrid) (hw : 0 < g.width) :
    ∀ (m k : Nat),
      writeImageAux k (catLists ((List.range' k m).map (fun y => rowPixels g y))) =
        joinRowsNL ((List.range' k m).map (fun y => encodeRow g y)) ++ ['\n'] := by
  intro m
  induction m with
  | zero => intro k; simp [catLists, joinRowsNL, writeImageAux]
  | succ m ih =>
    intro k
    rw [List.range'_succ]
    cases m with
    | zero =>
      have h1 := writeAux_row g.pix k (List.range g.width) []
      simp only [List.append_nil] at h1
      rw [show List.range' (k + 1) 0 = [] from rfl]
      rw [List.map_cons, List.map_cons, List.map_nil, List.map_nil, catLists_cons]
      rw [show rowPixels g k = (List.range g.width).map (fun x => (x, k, g.pix x k)) from rfl]
      rw [show (catLists ([] : List (List (Nat × Nat × Pixel)))) = [] from rfl]
      rw [List.append_nil, h1]
      simp [joinRowsNL, encodeRow, writeImageAux]
    | succ m' =>
      -- the current row k, then at least one further row starting at k + 1
      obtain ⟨tail, htail⟩ := rowPixels_cons g hw (k + 1)
      have hrest : catLists ((List.range' (k + 1) (m' + 1)).map (fun y => rowPixels g y)) =
          (0, k + 1, g.pix 0 (k + 1)) :: (tail ++
            catLists ((List.range' (k + 2) m').map (fun y => rowPixels g y))) := by
        rw [List.range'_succ, List.map_cons, catLists_cons, htail]
        simp [List.append_assoc]
      have hne : k + 1 ≠ k := by omega
      have hstep : writeImageAux k
          (catLists ((List.range' (k + 1) (m' + 1)).map (fun y => rowPixels g y))) =
          '\n' :: writeImageAux (k + 1)
            (catLists ((List.range' (k + 1) (m' + 1)).map (fun y => rowPixels g y))) := by
        rw [hrest]
        exact writeAux_ne k 0 (k + 1) (g.pix 0 (k + 1)) _ hne
      have hrow := writeAux_row g.pix k (List.range g.width)
        (catLists ((List.range' (k + 1) (m' + 1)).map (fun y => rowPixels g y)))
      rw [List.map_cons, List.map_cons, catLists_cons]
      rw [show rowPixels g k = (List.range g.width).map (fun x => (x, k, g.pix x k)) from rfl]
      rw [hrow, hstep, ih (k + 1)]
      rw [List.range'_succ, List.map_cons, joinRowsNL_cons2]
      simp [encodeRow, List.append_assoc]

/-- The bytes write_image emits equal the specification's row format for
every grid of positive width. -/
theorem ansiEncode_spec (g : PixelGrid) (hw : 0 < g.width) :
    ansiEncode g = specAnsiFormat g := by
  rw [ansiEncode, pixelsOf, specAnsiFormat, List.range_eq_range']
  exact writeAux_rows g hw g.height 0

/-- The fit-resize dimension law stays inside the requested box. -/
theorem fitDims_fits (w h bw bh : Nat) :
    (fitDims w h bw bh).1 ≤ bw ∧ (fitDims w h bw bh).2 ≤ bh := by
  rw [fitDims]
  split
  case isTrue hle =>
    refine ⟨le_refl bw, ?_⟩
    rcases Nat.eq_zero_or_pos w with hw | hw
    · simp [hw]
    · have h1 : h * bw ≤ w * bh := by
        calc h * bw = bw * h := Nat.mul_comm h bw
          _ ≤ w * bh := hle
      calc h * bw / w ≤ w * bh / w := Nat.div_le_div_right h1
        _ = bh := Nat.mul_div_cancel_left bh hw
  case isFalse hgt =>
    refine ⟨?_, le_refl bh⟩
    rcases Nat.eq_zero_or_pos h with hh | hh
    · simp [hh]
    · have h2 : w * bh ≤ bw * h := Nat.le_of_lt (Nat.lt_of_not_le hgt)
      calc w * bh / h ≤ bw * h / h := Nat.div_le_div_right h2
        _ = bw := Nat.mul_div_cancel bw hh

/-- A successful leftmost search implies the unanchored match test holds. -/
theorem firstWxH_hasWxH :
    ∀ (s : List Char) (d : List Char × List Char),
      firstWxH s = some d → hasWxH s = true := by
  intro s
  induction s with
  | nil => intro d h; simp [firstWxH] at h
  | cons c rest ih =>
    intro d h
    by_cases hc : wxhHere (c :: rest) = true
    · simp [hasWxH, hc]
    · rw [firstWxH, if_neg (by simp [hc])] at h
      simp [hasWxH, hc, ih d h]

/-! ## Claims -/

/-- C1 (amended): in every run in which the input file fails to decode, or
in which the output file cannot be opened for writing, the process prints
the error description to the error stream, returns from main normally and
therefore exits with status 0 (not a non-zero status), and writes no image
bytes to the configured output sink: standard output receives nothing and
the output file is never opened, so a file destination is absent or
untouched. -/
theorem decode_or_open_failure_reports_error (cfg : Config) (env : Env)
    (p : String) (hf : cfg.filters = false) (hi : cfg.input = some p) :
    (∀ e, env.decode = Except.error e →
      main cfg env = Outcome.finished 0 ⟨[], [e], none⟩) ∧
    (∀ img f sz e, env.decode = Except.ok img →
      get_filter cfg.filter = some f →
      get_size env.term cfg.size = SizeResult.ok sz →
      cfg.output ≠ "-" → env.openOut = Except.error e →
      main cfg env = Outcome.finished 0 ⟨[], [e], none⟩) := by
  constructor
  · intro e he
    simp [main, hf, hi, he]
  · intro img f sz e h1 h2 h3 h4 h5
    simp [main, hf, hi, h1, h2, h3, h4, h5]

/-- Witness for C1: a concrete decode-failure run hits the first error
path of the theorem. -/
theorem decode_or_open_failure_reports_error_witness :
    main ⟨false, "term", "nearest", some "in.png", "-"⟩ envDecodeFail =
      Outcome.finished 0 ⟨[], ["decode failure"], none⟩ :=
  (decode_or_open_failure_reports_error
    ⟨false, "term", "nearest", some "in.png", "-"⟩ envDecodeFail "in.png"
    rfl rfl).1 "decode failure" rfl

/-- C1 counterexample: a run whose input fails to decode returns from main
with exit status 0, refuting the claimed non-zero exit status (the
err_and_return macro prints and returns; a unit-returning main that returns
normally exits with status 0). -/
theorem decode_failure_exits_zero :
    main ⟨false, "term", "nearest", some "bad.txt", "-"⟩ envDecodeFail =
      Outcome.finished 0 ⟨[], ["decode failure"], none⟩ ∧
    ∀ c r, main ⟨false, "term", "nearest", some "bad.txt", "-"⟩ envDecodeFail =
      Outcome.finished c r → c = 0 := by
  have h0 : main ⟨false, "term", "nearest", some "bad.txt", "-"⟩ envDecodeFail =
      Outcome.finished 0 ⟨[], ["decode failure"], none⟩ := by decide
  refine ⟨h0, ?_⟩
  intro c r h
  rw [h0] at h
  cases h
  rfl

/-- C2 (amended): for every source image of dimensions (w0, h0) whose
tripled width does not overflow u32 (the aspect stage computes width * 3 in
32-bit arithmetic): the aspect-correction stage always runs first, as an
exact resize to (w0 * 3, h0), so with no resize target the final output has
width w0 * 3 and height h0; with an explicit target (W, H), W and H
positive, the final output is the aspect-preserving fit of (w0 * 3, h0)
into the box and so fits within (W, H); and every resize call of the
pipeline uses the one configured filter. -/
theorem transform_dimension_law (w0 h0 W H : Nat) (f : FilterType)
    (hov : 3 * w0 < 2 ^ 32) (hW : 0 < W) (hH : 0 < H) :
    transformTrace w0 h0 f none = ([⟨3 * w0, h0, f, true⟩], (3 * w0, h0)) ∧
    (transformTrace w0 h0 f (some (W, H))).2 = fitDims (3 * w0) h0 W H ∧
    (transformTrace w0 h0 f (some (W, H))).2.1 ≤ W ∧
    (transformTrace w0 h0 f (some (W, H))).2.2 ≤ H ∧
    (∀ sz, ((transformTrace w0 h0 f sz).1).head? = some ⟨3 * w0, h0, f, true⟩) ∧
    (∀ sz c, c ∈ (transformTrace w0 h0 f sz).1 → c.filter = f) := by
  have hov' : 3 * w0 < 4294967296 := by
    have h32 : (2 : Nat) ^ 32 = 4294967296 := by norm_num
    omega
  have hmod : w0 * 3 % 4294967296 = 3 * w0 := by omega
  refine ⟨?_, ?_, ?_, ?_, ?_, ?_⟩
  · simp [transformTrace, hmod]
  · simp [transformTrace, hmod]
  · simpa [transformTrace, hmod] using (fitDims_fits (3 * w0) h0 W H).1
  · simpa [transformTrace, hmod] using (fitDims_fits (3 * w0) h0 W H).2
  · intro sz
    rcases sz with _ | ⟨bw, bh⟩ <;> simp [transformTrace, hmod]
  · intro sz c hc
    rcases sz with _ | ⟨bw, bh⟩
    · simp [transformTrace] at hc
      simp [hc]
    · simp [transformTrace] at hc
      rcases hc with h | h <;> simp [h]

/-- Witness for C2: concrete dimensions exercise both the no-resize law and
the explicit-target fit. -/
theorem transform_dimension_law_witness :
    3 * 100 < 2 ^ 32 ∧ 0 < 50 ∧ 0 < 40 ∧
    transformTrace 100 30 FilterType.Triangle none =
      ([⟨300, 30, FilterType.Triangle, true⟩], (300, 30)) ∧
    (transformTrace 100 30 FilterType.Triangle (some (50, 40))).2.1 ≤ 50 :=
  ⟨by decide, by decide, by decide,
    (transform_dimension_law 100 30 50 40 FilterType.Triangle (by decide)
      (by decide) (by decide)).1,
    (transform_dimension_law 100 30 50 40 FilterType.Triangle (by decide)
      (by decide) (by decide)).2.2.1⟩

/-- C2 counterexample: a source image of width 2 ^ 31 refutes the claimed
law for every source image: the u32 multiplication wraps, and the
aspect-corrected width is 2 ^ 31 again rather than 3 * 2 ^ 31. -/
theorem transform_width_wraps_u32 :
    transformTrace 2147483648 1 FilterType.Nearest none =
      ([⟨2147483648, 1, FilterType.Nearest, true⟩], (2147483648, 1)) ∧
    (2147483648 : Nat) ≠ 3 * 2147483648 := by
  exact ⟨by decide, by decide⟩

/-- C3 (amended): for every PixelGrid of positive width the encoder emits
the pixels in row-major order, each pixel as exactly the escape sequence
selecting its 24-bit background color followed by one space and the reset
sequence, with a single newline between consecutive rows and one trailing
newline after the final row; in particular the 1 by 1 grid holding
(255, 0, 0) encodes to exactly the claimed byte string.  (A grid of width
zero and several rows emits only the single trailing newline, hence the
positive-width proviso.) -/
theorem ansi_encoder_format :
    (∀ g : PixelGrid, 0 < g.width → ansiEncode g = specAnsiFormat g) ∧
    ansiEncode ⟨1, 1, fun _ _ => (255, 0, 0)⟩ = "\x1b[48;2;255;0;0m \x1b[0m\n".data := by
  refine ⟨fun g hw => ansiEncode_spec g hw, by decide⟩

/-- Witness for C3: the row-format law evaluated on a concrete 2 by 2
grid. -/
theorem ansi_encoder_format_witness :
    0 < (PixelGrid.mk 2 2 (fun x y => (x, y, 7))).width ∧
    ansiEncode ⟨2, 2, fun x y => (x, y, 7)⟩ =
      specAnsiFormat ⟨2, 2, fun x y => (x, y, 7)⟩ :=
  ⟨by decide, ansi_encoder_format.1 ⟨2, 2, fun x y => (x, y, 7)⟩ (by decide)⟩

/-- C3 counterexample: a zero-width grid with two rows encodes to a single
newline, not to the two newlines (one between the rows, one trailing) that
the claimed format prescribes for every PixelGrid. -/
theorem ansi_encoder_zero_width_collapse :
    ansiEncode ⟨0, 2, fun _ _ => (0, 0, 0)⟩ = ['\n'] ∧
    specAnsiFormat ⟨0, 2, fun _ _ => (0, 0, 0)⟩ = ['\n', '\n'] ∧
    ansiEncode ⟨0, 2, fun _ _ => (0, 0, 0)⟩ ≠
      specAnsiFormat ⟨0, 2, fun _ _ => (0, 0, 0)⟩ := by
  exact ⟨by decide, by decide, by decide⟩

/-- C4 (amended): size validation rejects a string as malformed exactly
when the unanchored regex finds nothing, so every ASCII string that
contains no digits-[Xx]-digits substring and contains neither term nor
original as a substring is rejected with the invalid-format error before
execution.  (Strings that merely contain a match somewhere, such as xterm,
are accepted even though they are not of the WIDTHxHEIGHT form and are not
the exact literals.) -/
theorem size_validation_rejects_nonmatching (s : String)
    (ha : asciiOnly s = true)
    (h1 : hasWxH s.data = false)
    (h2 : containsChars "term".data s.data = false)
    (h3 : containsChars "original".data s.data = false) :
    validate_size s = Except.error "Size is not in a valid format" := by
  simp [validate_size, sizeRegexHit, h1, h2, h3]

/-- Witness for C4: the string hello matches none of the alternatives and
is rejected. -/
theorem size_validation_rejects_nonmatching_witness :
    (asciiOnly "hello" = true ∧ hasWxH "hello".data = false ∧
      containsChars "term".data "hello".data = false ∧
      containsChars "original".data "hello".data = false) ∧
    validate_size "hello" = Except.error "Size is not in a valid format" :=
  ⟨by decide, size_validation_rejects_nonmatching "hello" (by decide)
    (by decide) (by decide) (by decide)⟩

/-- C4 counterexample: the string xterm is not of the WIDTHxHEIGHT form and
is not one of the exact literals, yet validation accepts it, because the
regex is unanchored and xterm contains term as a substring. -/
theorem size_validation_accepts_xterm :
    isExactWxH "xterm".data = false ∧
    ("xterm" : String) ≠ "term" ∧ ("xterm" : String) ≠ "original" ∧
    validate_size "xterm" = Except.ok () :=
  ⟨by decide, by decide, by decide, rfl⟩

/-- C5: size resolution maps 640x480 and 640X480 to the explicit pair
(640, 480), original to the no-resize policy, and term to the terminal's
(columns, rows) when the query yields one, degrading to no resize rather
than an error when it does not; and abc fails validation with the
invalid-format error. -/
theorem size_resolution_examples :
    (∀ t, get_size t "640x480" = SizeResult.ok (some (640, 480))) ∧
    (∀ t, get_size t "640X480" = SizeResult.ok (some (640, 480))) ∧
    (∀ t, get_size t "original" = SizeResult.ok none) ∧
    (∀ c r : Nat, get_size (some (c, r)) "term" = SizeResult.ok (some (c, r))) ∧
    get_size none "term" = SizeResult.ok none ∧
    validate_size "abc" = Except.error "Size is not in a valid format" :=
  ⟨fun t => rfl, fun t => rfl, fun t => rfl, fun c r => rfl, rfl, rfl⟩

/-- C6: with the filters flag set, main prints exactly the five recognized
filter names, one per line, in the enumerated order, then returns with exit
status 0, whatever the remaining configuration holds - including a missing
input and arbitrary (even invalid) filter and size values. -/
theorem filters_flag_lists_filters (cfg : Config) (env : Env)
    (h : cfg.filters = true) :
    main cfg env = Outcome.finished 0
      ⟨"nearest\ntriangle\ncatmullrom\ngaussian\nlanczos3\n".data, [], none⟩ := by
  have hout : filtersOutput =
      "nearest\ntriangle\ncatmullrom\ngaussian\nlanczos3\n".data := by decide
  simp [main, h, hout]

/-- Witness for C6: a concrete run with no input, run against an
environment whose decode would fail, still prints the listing. -/
theorem filters_flag_lists_filters_witness :
    main ⟨true, "term", "nearest", none, "-"⟩ envDecodeFail =
      Outcome.finished 0
        ⟨"nearest\ntriangle\ncatmullrom\ngaussian\nlanczos3\n".data, [], none⟩ :=
  filters_flag_lists_filters ⟨true, "term", "nearest", none, "-"⟩
    envDecodeFail rfl

/-- C7: each of the five filter names resolves to its own distinct
FilterKind and every other string resolves to no filter at all. -/
theorem filter_lookup_complete :
    get_filter "nearest" = some FilterType.Nearest ∧
    get_filter "triangle" = some FilterType.Triangle ∧
    get_filter "catmullrom" = some FilterType.CatmullRom ∧
    get_filter "gaussian" = some FilterType.Gaussian ∧
    get_filter "lanczos3" = some FilterType.Lanczos3 ∧
    List.Nodup [FilterType.Nearest, FilterType.Triangle, FilterType.CatmullRom,
      FilterType.Gaussian, FilterType.Lanczos3] ∧
    ∀ s : String, s ∉ FILTERS → get_filter s = none := by
  refine ⟨rfl, rfl, rfl, rfl, rfl, by decide, ?_⟩
  intro s hs
  simp [FILTERS] at hs
  obtain ⟨n1, n2, n3, n4, n5⟩ := hs
  simp [get_filter, n1, n2, n3, n4, n5]

/-- Witness for C7: the unrecognized name bicubic resolves to none. -/
theorem filter_lookup_complete_witness :
    ("bicubic" : String) ∉ FILTERS ∧ get_filter "bicubic" = none :=
  ⟨by decide, filter_lookup_complete.2.2.2.2.2.2 "bicubic" (by decide)⟩

/-- C8: the encoder is a deterministic function of the grid: the bytes a
run of write_image appends to any sink are exactly ansiEncode of the grid,
independent of the sink's prior contents, so two runs over the same grid
append byte-identical output. -/
theorem ansi_encoder_deterministic :
    ∀ (g : PixelGrid) (out : List Char),
      writeImageTo out g = out ++ ansiEncode g ∧
      writeImageTo (writeImageTo out g) g =
        out ++ (ansiEncode g ++ ansiEncode g) := by
  intro g out
  have h : ∀ o : List Char, writeImageTo o g = o ++ ansiEncode g := by
    intro o
    rw [writeImageTo, ansiEncode]
    exact write_image_eq (pixelsOf g) o 0
  refine ⟨h out, ?_⟩
  rw [h (writeImageTo out g), h out, List.append_assoc]

/-- C9: there is a size specification that passes validation yet makes size
resolution panic instead of returning a size or an error: the width digits
of 99999999999x9 exceed the u32 maximum, so the unwrapped parse fails,
whatever the terminal reports. -/
theorem size_resolution_panic_exists :
    validate_size "99999999999x9" = Except.ok () ∧
    ∀ t, get_size t "99999999999x9" = SizeResult.panicked :=
  ⟨rfl, fun t => rfl⟩

/-- C10 (amended): every ASCII size string other than the exact literals
term and original in which the digits-[Xx]-digits pattern matches somewhere
passes validation, and resolution returns the explicit pair parsed from the
leftmost match - its maximal digit runs - whenever both components fit in
u32 (when one overflows, resolution panics instead); in particular both
a10x20b and 10x20x30 resolve to the explicit pair (10, 20). -/
theorem embedded_wxh_accepted_first_match :
    (∀ (s : String) (t : Option (Nat × Nat)) (d1 d2 : List Char) (n1 n2 : Nat),
      asciiOnly s = true → s ≠ "term" → s ≠ "original" →
      firstWxH s.data = some (d1, d2) →
      parseU32 d1 = some n1 → parseU32 d2 = some n2 →
      validate_size s = Except.ok () ∧
        get_size t s = SizeResult.ok (some (n1, n2))) ∧
    (∀ t, get_size t "a10x20b" = SizeResult.ok (some (10, 20))) ∧
    (∀ t, get_size t "10x20x30" = SizeResult.ok (some (10, 20))) ∧
    validate_size "a10x20b" = Except.ok () ∧
    validate_size "10x20x30" = Except.ok () := by
  refine ⟨?_, fun t => rfl, fun t => rfl, rfl, rfl⟩
  intro s t d1 d2 n1 n2 ha hterm horig hfst hp1 hp2
  constructor
  · have hmatch := firstWxH_hasWxH s.data (d1, d2) hfst
    simp [validate_size, sizeRegexHit, hmatch]
  · simp [get_size, hterm, horig, hfst, hp1, hp2]

/-- Witness for C10: the general statement applied to a10x20b with the
terminal unavailable. -/
theorem embedded_wxh_accepted_first_match_witness :
    (asciiOnly "a10x20b" = true ∧ ("a10x20b" : String) ≠ "term" ∧
      ("a10x20b" : String) ≠ "original" ∧
      firstWxH "a10x20b".data = some (['1', '0'], ['2', '0']) ∧
      parseU32 ['1', '0'] = some 10 ∧ parseU32 ['2', '0'] = some 20) ∧
    validate_size "a10x20b" = Except.ok () ∧
    get_size none "a10x20b" = SizeResult.ok (some (10, 20)) :=
  ⟨⟨by decide, by decide, by decide, by decide, by decide, by decide⟩,
    (embedded_wxh_accepted_first_match.1 "a10x20b" none ['1', '0'] ['2', '0']
      10 20 (by decide) (by decide) (by decide) (by decide) (by decide)
      (by decide)).1,
    (embedded_wxh_accepted_first_match.1 "a10x20b" none ['1', '0'] ['2', '0']
      10 20 (by decide) (by decide) (by decide) (by decide) (by decide)
      (by decide)).2⟩

/-- C10 counterexample: the string 4294967296x1 contains a digits-x-digits
substring and is neither literal, yet resolution does not return an
explicit pair of the match: it panics, because the first component equals
2 ^ 32 and the unwrapped u32 parse fails. -/
theorem embedded_wxh_overflow_panics :
    hasWxH "4294967296x1".data = true ∧
    ("4294967296x1" : String) ≠ "term" ∧
    ("4294967296x1" : String) ≠ "original" ∧
    validate_size "4294967296x1" = Except.ok () ∧
    ∀ t, get_size t "4294967296x1" = SizeResult.panicked :=
  ⟨by decide, by decide, by decide, rfl, fun t => rfl⟩

end ImageRender
